import Mathlib

/-!
Shallow embedding of `fn-merge-cache` (`src/src/index.ts`, class `FnMergeCache`).

The class wraps a user function `fn` with a single insertion-ordered map
`_result : Map<A, [number, R?, any?]>` (argument key -> [time, result, error]),
a throttled garbage collector `_callGC`, a `revalidate`/`dispose` lifecycle and
a process-wide revalidation event bus keyed by tag strings.

Modelling choices, each traceable to the source:
  * An entry of `_result` becomes a `Node`: JS `Map` keys are distinct object
    identities (a fresh `args` array per call), so every node carries a unique
    numeric `id` in addition to the comparator-relevant `key`.  `Map.set` with a
    fresh key appends at the end; `Map.delete` removes by identity; iteration is
    in insertion order.  The store is therefore a `List Node` with append and
    filter-by-id.
  * The wrapped function's behaviour at one invocation is an oracle argument
    `FnBehavior`: it returns a plain value, throws, or returns a Promise.  A
    Promise is identified by the invocation counter at its creation; its
    settlement (`.then(onRes, onErr)` handlers attached by the first caller)
    is a separate transition `settle`, matching the event-loop semantics.
  * `Date.now()` is an explicit `now : Nat` argument.
  * JS truthiness of a cached error (`if (result[2]) throw result[2]`) is
    embedded through the injected `errTruthy : E → Bool`.
  * The throttled, microtask-scheduled `_callGC` never runs inside `call`; it is
    the separate transition `gcTick` (`callGC` on the store).
  * The event bus is modelled per instance: the set of tag strings the instance
    is currently subscribed to (`revalidateAllStr` plus its own tags after
    construction, nothing after `dispose`), with `revalidateTag` delivering a
    list of emitted tags.
-/

namespace FnMergeCache

variable {K V E : Type}

/-- A value slot of a `_result` entry: either a plain (synchronous) result or a
Promise, identified by the invocation index that created it. -/
inductive StoredVal (V : Type) where
  | pure (v : V)
  | prom (pid : Nat)
deriving DecidableEq

/-- One entry of `this._result` (`index.ts` line 23:
`Map<A, [number, R?, any?]>`, i.e. `arg: [time, result, error]`).  `id` models
the identity of the `args` array object used as the Map key, `key` its
comparator-relevant content. -/
structure Node (K V E : Type) where
  id : Nat
  key : K
  time : Nat
  val : Option (StoredVal V)
  err : Option E
deriving DecidableEq

/-- Constructor options of `FnMergeCache` (`index.ts` lines 51-78), plus the
two injected capabilities `argComparer` (lodash `isEqual` by default) and
`errTruthy` (JS truthiness of a thrown value). -/
structure Config (K V E : Type) where
  persist : Bool
  persistOnError : Bool
  argComparer : K → K → Bool
  ttl : Nat
  maxCacheSize : Nat
  tags : List String
  errTruthy : E → Bool

/-- The option defaults of the source constructor: `persist = false`,
`persistOnError = false`, `ttl = 0`, `maxCacheSize = 0`, `tags = []`. -/
def defaultConfig (cmp : K → K → Bool) (tr : E → Bool) : Config K V E :=
  ⟨false, false, cmp, 0, 0, [], tr⟩

/-- Behaviour of one invocation of the wrapped function `fn`: return a plain
value, throw synchronously, or return a Promise (settled later). -/
inductive FnBehavior (V E : Type) where
  | sync (v : V)
  | throwE (e : E)
  | async
deriving DecidableEq

/-- Eventual outcome of a Promise returned by the wrapped function. -/
inductive Outcome (V E : Type) where
  | resolve (v : V)
  | reject (e : E)
deriving DecidableEq

/-- What one `call(...)` does for its caller: return a value slot (`none` is JS
`undefined`, `prom` a Promise handle), throw, or throw the disposed error. -/
inductive CallResult (V E : Type) where
  | value (v : Option (StoredVal V))
  | thrown (e : E)
  | disposedErr
deriving DecidableEq

/-- Instance state: `_disposed`, `_result` (insertion-ordered), the set of
in-flight promise ids whose `.then` handlers have not yet run, the number of
invocations of the wrapped function so far, and the tags the instance is
subscribed to on the revalidation bus. -/
structure St (K V E : Type) where
  disposed : Bool
  result : List (Node K V E)
  pending : List Nat
  calls : Nat
  subscribed : List String
deriving DecidableEq

/-- `index.ts` line 11: the reserved sentinel tag. -/
def revalidateAllStr : String := "__FN_MERGE_CACHE_INSIDE__all"

/-- The constructor's rejection message for a reserved tag. -/
def reservedTagMsg : String :=
  "Tag name \"__FN_MERGE_CACHE_INSIDE__all\" is reserved, please use another tag name"

/-- State right after a successful constructor run: empty store, no pending
calls, subscribed to the all-sentinel and the configured tags. -/
def initSt (cfg : Config K V E) : St K V E :=
  ⟨false, [], [], 0, revalidateAllStr :: cfg.tags⟩

/-- The constructor (`index.ts` lines 62-78): throws when `tags` contains the
reserved sentinel, otherwise subscribes and yields the fresh instance. -/
def construct (cfg : Config K V E) : Except String (St K V E) :=
  if revalidateAllStr ∈ cfg.tags then Except.error reservedTagMsg
  else Except.ok (initSt cfg)

/-- `Map.delete` by key identity. -/
def eraseNode (i : Nat) (l : List (Node K V E)) : List (Node K V E) :=
  l.filter (fun n => n.id != i)

/-- The invocation tail of `call` (`index.ts` lines 106-137): run `fn`; a
Promise is recorded immediately (`for merge promise call`) with its settlement
handler; a plain value is recorded iff `persist`; a synchronous throw is
recorded iff `persist && persistOnError`.  `res` is the store after the persist
branch (a stale hit may have been deleted). -/
def invoke (cfg : Config K V E) (res : List (Node K V E)) (st : St K V E)
    (now : Nat) (args : K) : FnBehavior V E → CallResult V E × St K V E
  | FnBehavior.sync v =>
      (CallResult.value (some (StoredVal.pure v)),
       ⟨st.disposed,
        if cfg.persist then res ++ [⟨st.calls, args, now, some (StoredVal.pure v), none⟩] else res,
        st.pending, st.calls + 1, st.subscribed⟩)
  | FnBehavior.throwE e =>
      (CallResult.thrown e,
       ⟨st.disposed,
        if cfg.persist && cfg.persistOnError then
          res ++ [⟨st.calls, args, now, none, some e⟩]
        else res,
        st.pending, st.calls + 1, st.subscribed⟩)
  | FnBehavior.async =>
      (CallResult.value (some (StoredVal.prom st.calls)),
       ⟨st.disposed,
        res ++ [⟨st.calls, args, now, some (StoredVal.prom st.calls), none⟩],
        st.pending ++ [st.calls], st.calls + 1, st.subscribed⟩)

/-- The live-hit return of `call` (`index.ts` lines 97-100): `if (result[2])
throw result[2]; return result[1]!` — a truthy cached error is re-thrown, any
other entry (a falsy cached error included) returns the value slot. -/
def hitResult (cfg : Config K V E) (st : St K V E) (val : Option (StoredVal V)) :
    Option E → CallResult V E × St K V E
  | some e =>
      if cfg.errTruthy e then (CallResult.thrown e, st)
      else (CallResult.value val, st)
  | none => (CallResult.value val, st)

/-- The persist branch of `call` after the linear scan (`index.ts` lines
87-103): a found live entry is returned/thrown, a found stale entry is deleted
and the call falls through to invocation, no match falls through directly. -/
def afterLookup (cfg : Config K V E) (st : St K V E) (now : Nat) (args : K)
    (beh : FnBehavior V E) : Option (Node K V E) → CallResult V E × St K V E
  | some n =>
      if cfg.ttl = 0 ∨ now - n.time ≤ cfg.ttl then hitResult cfg st n.val n.err
      else invoke cfg (eraseNode n.id st.result) st now args beh
  | none => invoke cfg st.result st now args beh

/-- `FnMergeCache.call` (`index.ts` lines 80-138).  Disposed instances throw.
With `persist`, the store is scanned (first comparator match) and dispatched by
`afterLookup`/`hitResult`.  Without `persist` the scan is skipped entirely. -/
def call (cfg : Config K V E) (st : St K V E) (now : Nat) (args : K)
    (beh : FnBehavior V E) : CallResult V E × St K V E :=
  if st.disposed then (CallResult.disposedErr, st)
  else if cfg.persist then
    afterLookup cfg st now args beh
      (st.result.find? (fun n => cfg.argComparer n.key args))
  else invoke cfg st.result st now args beh

/-- Settlement of the Promise created by invocation `pid` (`index.ts` lines
112-125): the `.then` handlers run once; on resolution the entry is deleted
unless `persist`; on rejection it is deleted unless `persist && persistOnError`
(either way the retained entry is left exactly as stored at call time). -/
def settle (cfg : Config K V E) (st : St K V E) (pid : Nat) (oc : Outcome V E) :
    St K V E :=
  if pid ∈ st.pending then
    ⟨st.disposed,
     if (match oc with
         | Outcome.resolve _ => cfg.persist
         | Outcome.reject _ => cfg.persist && cfg.persistOnError) then st.result
     else eraseNode pid st.result,
     st.pending.erase pid, st.calls, st.subscribed⟩
  else st

/-- The sweep body of `_callGC` (`index.ts` lines 25-38): walk in insertion
order; delete while TTL-expired (`ttl && now - v[0] > ttl`) or over the size
bound (`maxCacheSize && size > maxCacheSize`, the size re-read after each
deletion); break at the first survivor. -/
def callGC (ttl maxCacheSize now : Nat) : List (Node K V E) → List (Node K V E)
  | [] => []
  | n :: rest =>
      if (ttl ≠ 0 ∧ now - n.time > ttl) ∨ (maxCacheSize ≠ 0 ∧ rest.length + 1 > maxCacheSize) then
        callGC ttl maxCacheSize now rest
      else n :: rest

/-- `revalidate` (`index.ts` lines 140-142): `this._result.clear()`. -/
def revalidate (st : St K V E) : St K V E :=
  ⟨st.disposed, [], st.pending, st.calls, st.subscribed⟩

/-- `dispose` (`index.ts` lines 144-149): mark disposed, clear the store,
unsubscribe from the all-sentinel and every configured tag. -/
def dispose (st : St K V E) : St K V E :=
  ⟨true, [], st.pending, st.calls, []⟩

/-- Effect on one instance of the exported `revalidateTag` (`index.ts` lines
154-160): each emitted tag reaches the instance iff it is subscribed to it; the
no-argument form corresponds to `[revalidateAllStr]`. -/
def revalidateTag (st : St K V E) (tags : List String) : St K V E :=
  if tags.any (fun t => st.subscribed.contains t) then revalidate st else st

/-- One step of the instance's event loop: a call (with the wrapped function's
behaviour for that invocation), a promise settlement, a run of the throttled
GC, a direct or bus-delivered revalidation, or disposal. -/
inductive Op (K V E : Type) where
  | call (now : Nat) (args : K) (beh : FnBehavior V E)
  | settle (pid : Nat) (oc : Outcome V E)
  | gcTick (now : Nat)
  | revalidate
  | revalidateTagEmit (tags : List String)
  | dispose

/-- Apply one event-loop step to the instance state. -/
def applyOp (cfg : Config K V E) (st : St K V E) : Op K V E → St K V E
  | Op.call now args beh => (call cfg st now args beh).2
  | Op.settle pid oc => settle cfg st pid oc
  | Op.gcTick now =>
      ⟨st.disposed, callGC cfg.ttl cfg.maxCacheSize now st.result,
       st.pending, st.calls, st.subscribed⟩
  | Op.revalidate => revalidate st
  | Op.revalidateTagEmit tags => revalidateTag st tags
  | Op.dispose => dispose st

/-- Run a sequence of event-loop steps. -/
def run (cfg : Config K V E) (st : St K V E) (ops : List (Op K V E)) : St K V E :=
  ops.foldl (applyOp cfg) st

/-- Concrete instantiation: arguments, values and errors are numbers, the
comparator is (deep) equality on numbers, truthiness of a numeric error is
being nonzero — exactly JS truthiness restricted to numbers. -/
def natTruthy (e : Nat) : Bool := e != 0

/-- A caching-disabled instance (`cache: false` in the README's merge-only
mode): `persist := false`, everything else at its default. -/
def cfgMergeOnly : Config Nat Nat Nat := ⟨false, false, Nat.beq, 0, 0, [], natTruthy⟩

/-- The configuration produced by `new FnMergeCache(fn)` with no options. -/
def cfgDefault : Config Nat Nat Nat := defaultConfig Nat.beq natTruthy

/-- Caching enabled with `ttl: 0` and `maxCacheSize: 2` (the LRU-mode setup). -/
def cfgLRU : Config Nat Nat Nat := ⟨true, false, Nat.beq, 0, 2, [], natTruthy⟩

/-- Caching enabled, everything else at its default. -/
def cfgPersist : Config Nat Nat Nat := ⟨true, false, Nat.beq, 0, 0, [], natTruthy⟩

/-- Caching and error caching both enabled. -/
def cfgErrCache : Config Nat Nat Nat := ⟨true, true, Nat.beq, 0, 0, [], natTruthy⟩

/-- Caching enabled with `ttl: 1000`. -/
def cfgTTL : Config Nat Nat Nat := ⟨true, false, Nat.beq, 1000, 0, [], natTruthy⟩

/-- Scenario: a first async `call(1)` on a caching instance (promise 0 is
in flight), a second equal-args call merged onto it before any revalidation. -/
def mergedSecondCall : CallResult Nat Nat × St Nat Nat Nat :=
  call cfgPersist (call cfgPersist (initSt cfgPersist) 0 1 FnBehavior.async).2 0 1
    FnBehavior.async

/-- Scenario: `revalidate()` issued while promise 0 of async `call(1)` is still
in flight. -/
def revalidatedInFlight : St Nat Nat Nat :=
  revalidate (call cfgPersist (initSt cfgPersist) 0 1 FnBehavior.async).2

/-- Scenario: an equal-args call issued after that revalidate, while promise 0
is still unsettled. -/
def callAfterRevalidate : CallResult Nat Nat × St Nat Nat Nat :=
  call cfgPersist revalidatedInFlight 1 1 FnBehavior.async

/-- Scenario: instance state while the async `call(7)` is still in flight. -/
def inFlightState : St Nat Nat Nat :=
  (call cfgPersist (initSt cfgPersist) 0 7 FnBehavior.async).2

/-- Well-formedness of a store: every entry has exactly one of its value/error
slots set. -/
def wfStore (l : List (Node K V E)) : Prop :=
  ∀ n ∈ l, (n.val.isSome = true ∧ n.err = none) ∨ (n.val = none ∧ n.err.isSome = true)

theorem invoke_calls (cfg : Config K V E) (res : List (Node K V E)) (st : St K V E)
    (now : Nat) (args : K) (beh : FnBehavior V E) :
    (invoke cfg res st now args beh).2.calls = st.calls + 1 := by
  cases beh <;> rfl

theorem invoke_disposed (cfg : Config K V E) (res : List (Node K V E)) (st : St K V E)
    (now : Nat) (args : K) (beh : FnBehavior V E) :
    (invoke cfg res st now args beh).2.disposed = st.disposed := by
  cases beh <;> rfl

theorem call_disposed (cfg : Config K V E) (st : St K V E) (now : Nat) (args : K)
    (beh : FnBehavior V E) (hd : st.disposed = true) :
    call cfg st now args beh = (CallResult.disposedErr, st) := by
  unfold call
  rw [hd]
  simp

theorem call_empty (cfg : Config K V E) (st : St K V E) (now : Nat) (args : K)
    (beh : FnBehavior V E) (hd : st.disposed = false) (hr : st.result = []) :
    call cfg st now args beh = invoke cfg [] st now args beh := by
  unfold call
  rw [hd, hr]
  cases hp : cfg.persist <;> simp [List.find?, afterLookup, hr]

theorem call_hit (cfg : Config K V E) (st : St K V E) (now : Nat) (args : K)
    (beh : FnBehavior V E) (n : Node K V E)
    (hd : st.disposed = false) (hp : cfg.persist = true)
    (hf : st.result.find? (fun m => cfg.argComparer m.key args) = some n)
    (hlive : cfg.ttl = 0 ∨ now - n.time ≤ cfg.ttl) (herr : n.err = none) :
    call cfg st now args beh = (CallResult.value n.val, st) := by
  unfold call
  rw [hd, hp, hf]
  simp only [afterLookup, if_pos hlive, herr, hitResult, Bool.false_eq_true, if_false,
    if_true]

theorem call_hit_falsy_err (cfg : Config K V E) (st : St K V E) (now : Nat) (args : K)
    (beh : FnBehavior V E) (n : Node K V E) (e : E)
    (hd : st.disposed = false) (hp : cfg.persist = true)
    (hf : st.result.find? (fun m => cfg.argComparer m.key args) = some n)
    (hlive : cfg.ttl = 0 ∨ now - n.time ≤ cfg.ttl) (herr : n.err = some e)
    (hfalsy : cfg.errTruthy e = false) :
    call cfg st now args beh = (CallResult.value n.val, st) := by
  unfold call
  rw [hd, hp, hf]
  simp only [afterLookup, if_pos hlive, herr, hitResult, hfalsy, Bool.false_eq_true,
    if_false, if_true]

theorem call_stale (cfg : Config K V E) (st : St K V E) (now : Nat) (args : K)
    (beh : FnBehavior V E) (n : Node K V E)
    (hd : st.disposed = false) (hp : cfg.persist = true)
    (hf : st.result.find? (fun m => cfg.argComparer m.key args) = some n)
    (hstale : ¬(cfg.ttl = 0 ∨ now - n.time ≤ cfg.ttl)) :
    call cfg st now args beh = invoke cfg (eraseNode n.id st.result) st now args beh := by
  unfold call
  rw [hd, hp, hf]
  simp only [afterLookup, if_neg hstale, Bool.false_eq_true, if_false, if_true]

/-- C1, evidence of the code bug: with caching disabled the merge lookup is
skipped, so a second equal-args call issued while the first async call is still
pending invokes the function a second time and gets a distinct promise. -/
theorem merge_skipped_when_cache_disabled :
    (call cfgMergeOnly (initSt cfgMergeOnly) 0 1 FnBehavior.async).1
        = CallResult.value (some (StoredVal.prom 0)) ∧
    0 ∈ (call cfgMergeOnly (initSt cfgMergeOnly) 0 1 FnBehavior.async).2.pending ∧
    (call cfgMergeOnly (call cfgMergeOnly (initSt cfgMergeOnly) 0 1 FnBehavior.async).2
        0 1 FnBehavior.async).1 = CallResult.value (some (StoredVal.prom 1)) ∧
    (call cfgMergeOnly (call cfgMergeOnly (initSt cfgMergeOnly) 0 1 FnBehavior.async).2
        0 1 FnBehavior.async).2.calls = 2 := by decide

/-- C2, evidence of the code bug: `new FnMergeCache(fn)` with no options leaves
caching off (`persist = false`), so a second call with equal arguments
re-invokes the function and returns the fresh result, not the stored one. -/
theorem default_options_do_not_cache :
    cfgDefault.persist = false ∧
    (call cfgDefault (initSt cfgDefault) 0 1 (FnBehavior.sync 10)).1
        = CallResult.value (some (StoredVal.pure 10)) ∧
    (call cfgDefault (call cfgDefault (initSt cfgDefault) 0 1 (FnBehavior.sync 10)).2
        1 1 (FnBehavior.sync 20)).1 = CallResult.value (some (StoredVal.pure 20)) ∧
    (call cfgDefault (call cfgDefault (initSt cfgDefault) 0 1 (FnBehavior.sync 10)).2
        1 1 (FnBehavior.sync 20)).2.calls = 2 := by decide

/-- C3, evidence of the code bug: with `ttl = 0`, `maxCacheSize = 2`, a cache
hit on key 1 returns the stored value without re-invoking but does not
re-insert the entry at the MRU end, so after key 3 is cached the sweep still
evicts key 1 — the entry just touched — leaving keys [2, 3] (FIFO, not LRU). -/
theorem cache_hit_does_not_promote_lru :
    (call cfgLRU
        (run cfgLRU (initSt cfgLRU)
          [Op.call 0 1 (FnBehavior.sync 10), Op.call 0 2 (FnBehavior.sync 20)])
        0 1 (FnBehavior.sync 99)).1 = CallResult.value (some (StoredVal.pure 10)) ∧
    (run cfgLRU (initSt cfgLRU)
        [Op.call 0 1 (FnBehavior.sync 10), Op.call 0 2 (FnBehavior.sync 20),
         Op.call 0 1 (FnBehavior.sync 99), Op.call 0 3 (FnBehavior.sync 30),
         Op.gcTick 0]).result.map Node.key = [2, 3] ∧
    (run cfgLRU (initSt cfgLRU)
        [Op.call 0 1 (FnBehavior.sync 10), Op.call 0 2 (FnBehavior.sync 20),
         Op.call 0 1 (FnBehavior.sync 99), Op.call 0 3 (FnBehavior.sync 30),
         Op.gcTick 0]).calls = 3 := by decide

/-- C8, counterexample: `revalidate()` clears the in-flight entry too, so an
equal-args call issued after the revalidate, while promise 0 is still pending,
does not merge — the function is invoked a second time (a fresh promise 1). -/
theorem revalidate_discards_inflight_merge_target :
    0 ∈ revalidatedInFlight.pending ∧
    callAfterRevalidate.1 = CallResult.value (some (StoredVal.prom 1)) ∧
    callAfterRevalidate.2.calls = 2 := by decide

/-- C8, amended: before a revalidate an equal-args call does merge onto the
pending promise 0 with a single invocation; `revalidate()` empties the whole
store (in-flight entry included) while the promise stays pending; an equal-args
call after the revalidate starts a second invocation; and the settlement of
promise 0 runs its handler without repopulating any cache entry. -/
theorem revalidate_clears_inflight_entries :
    mergedSecondCall.1 = CallResult.value (some (StoredVal.prom 0)) ∧
    mergedSecondCall.2.calls = 1 ∧
    revalidatedInFlight.result = [] ∧
    0 ∈ revalidatedInFlight.pending ∧
    callAfterRevalidate.2.calls = 2 ∧
    (settle cfgPersist callAfterRevalidate.2 0 (Outcome.resolve 10)).result
        = callAfterRevalidate.2.result ∧
    0 ∉ (settle cfgPersist callAfterRevalidate.2 0 (Outcome.resolve 10)).pending := by
  decide

theorem applyOp_terminal (cfg : Config K V E) (st : St K V E) (op : Op K V E)
    (h1 : st.disposed = true) (h2 : st.result = []) (h3 : st.subscribed = []) :
    (applyOp cfg st op).disposed = true ∧ (applyOp cfg st op).result = [] ∧
    (applyOp cfg st op).subscribed = [] ∧ (applyOp cfg st op).calls = st.calls := by
  cases op with
  | call now args beh =>
      simp only [applyOp, call_disposed cfg st now args beh h1]
      exact ⟨h1, h2, h3, trivial⟩
  | settle pid oc =>
      by_cases hm : pid ∈ st.pending <;>
        simp [applyOp, settle, hm, h1, h2, h3, eraseNode]
  | gcTick now =>
      simp [applyOp, h1, h2, h3, callGC]
  | revalidate =>
      simp [applyOp, revalidate, h1, h3]
  | revalidateTagEmit tags =>
      simp only [applyOp, revalidateTag]
      split
      · simp [revalidate, h1, h3]
      · exact ⟨h1, h2, h3, rfl⟩
  | dispose =>
      simp [applyOp, dispose]

theorem run_terminal (cfg : Config K V E) (ops : List (Op K V E)) :
    ∀ st : St K V E, st.disposed = true → st.result = [] → st.subscribed = [] →
      (run cfg st ops).disposed = true ∧ (run cfg st ops).result = [] ∧
      (run cfg st ops).subscribed = [] ∧ (run cfg st ops).calls = st.calls := by
  induction ops with
  | nil =>
      intro st h1 h2 h3
      exact ⟨h1, h2, h3, rfl⟩
  | cons op rest ih =>
      intro st h1 h2 h3
      have h := applyOp_terminal cfg st op h1 h2 h3
      have h4 := ih (applyOp cfg st op) h.1 h.2.1 h.2.2.1
      exact ⟨h4.1, h4.2.1, h4.2.2.1, h4.2.2.2.trans h.2.2.2⟩

/-- C7: after `dispose()` the instance is terminal: whatever event-loop steps
follow (calls, settlements, GC runs, direct or bus-delivered revalidations),
the instance stays disposed with an empty store and no bus subscriptions, the
wrapped function is never invoked again, and every further `call` throws the
disposed error without changing the state. -/
theorem dispose_is_terminal (cfg : Config K V E) (st : St K V E) (ops : List (Op K V E)) :
    (run cfg (dispose st) ops).disposed = true ∧
    (run cfg (dispose st) ops).result = [] ∧
    (run cfg (dispose st) ops).subscribed = [] ∧
    (run cfg (dispose st) ops).calls = st.calls ∧
    ∀ (now : Nat) (args : K) (beh : FnBehavior V E),
      (call cfg (run cfg (dispose st) ops) now args beh).1 = CallResult.disposedErr ∧
      (call cfg (run cfg (dispose st) ops) now args beh).2 = run cfg (dispose st) ops := by
  have h := run_terminal cfg ops (dispose st) rfl rfl rfl
  refine ⟨h.1, h.2.1, h.2.2.1, h.2.2.2, ?_⟩
  intro now args beh
  rw [call_disposed cfg _ now args beh h.1]
  exact ⟨rfl, rfl⟩

theorem wfStore_append (l : List (Node K V E)) (n : Node K V E) (h : wfStore l)
    (hn : (n.val.isSome = true ∧ n.err = none) ∨ (n.val = none ∧ n.err.isSome = true)) :
    wfStore (l ++ [n]) := by
  intro m hm
  rcases List.mem_append.mp hm with h1 | h1
  · exact h m h1
  · have h2 := List.mem_singleton.mp h1
    subst h2
    exact hn

theorem wfStore_filter (l : List (Node K V E)) (p : Node K V E → Bool)
    (h : wfStore l) : wfStore (l.filter p) :=
  fun n hn => h n (List.mem_of_mem_filter hn)

theorem wfStore_invoke (cfg : Config K V E) (res : List (Node K V E)) (st : St K V E)
    (now : Nat) (args : K) (beh : FnBehavior V E) (h : wfStore res) :
    wfStore ((invoke cfg res st now args beh).2.result) := by
  cases beh with
  | sync v =>
      by_cases hp : cfg.persist = true
      · simp only [invoke, if_pos hp]
        exact wfStore_append _ _ h (Or.inl ⟨rfl, rfl⟩)
      · simp only [invoke, if_neg hp]
        exact h
  | throwE e =>
      by_cases hb : (cfg.persist && cfg.persistOnError) = true
      · simp only [invoke, if_pos hb]
        exact wfStore_append _ _ h (Or.inr ⟨rfl, rfl⟩)
      · simp only [invoke, if_neg hb]
        exact h
  | async =>
      exact wfStore_append _ _ h (Or.inl ⟨rfl, rfl⟩)

theorem wfStore_call (cfg : Config K V E) (st : St K V E) (now : Nat) (args : K)
    (beh : FnBehavior V E) (h : wfStore st.result) :
    wfStore ((call cfg st now args beh).2.result) := by
  unfold call
  split
  · exact h
  · split
    · cases hf : st.result.find? (fun n => cfg.argComparer n.key args) with
      | none => exact wfStore_invoke cfg st.result st now args beh h
      | some n =>
          simp only [afterLookup]
          split
          · cases herr : n.err with
            | some e =>
                simp only [hitResult]
                split
                · exact h
                · exact h
            | none => exact h
          · exact wfStore_invoke cfg (eraseNode n.id st.result) st now args beh
              (wfStore_filter _ _ h)
    · exact wfStore_invoke cfg st.result st now args beh h

theorem wfStore_settle (cfg : Config K V E) (st : St K V E) (pid : Nat)
    (oc : Outcome V E) (h : wfStore st.result) :
    wfStore ((settle cfg st pid oc).result) := by
  by_cases hm : pid ∈ st.pending
  · simp only [settle, if_pos hm]
    split
    · exact h
    · exact wfStore_filter _ _ h
  · simp only [settle, if_neg hm]
    exact h

theorem wfStore_callGC (ttl maxCS now : Nat) :
    ∀ l : List (Node K V E), wfStore l → wfStore (callGC ttl maxCS now l) := by
  intro l
  induction l with
  | nil =>
      intro h
      exact h
  | cons n rest ih =>
      intro h
      simp only [callGC]
      split
      · exact ih (fun m hm => h m (List.mem_cons_of_mem n hm))
      · exact h

theorem wfStore_applyOp (cfg : Config K V E) (st : St K V E) (op : Op K V E)
    (h : wfStore st.result) : wfStore ((applyOp cfg st op).result) := by
  cases op with
  | call now args beh => exact wfStore_call cfg st now args beh h
  | settle pid oc => exact wfStore_settle cfg st pid oc h
  | gcTick now => exact wfStore_callGC cfg.ttl cfg.maxCacheSize now st.result h
  | revalidate => exact fun m hm => absurd hm (List.not_mem_nil m)
  | revalidateTagEmit tags =>
      simp only [applyOp, revalidateTag]
      split
      · exact fun m hm => absurd hm (List.not_mem_nil m)
      · exact h
  | dispose => exact fun m hm => absurd hm (List.not_mem_nil m)

/-- C9, amended: in every state reachable from a freshly constructed instance,
every entry of the store has exactly one of its value/error slots set — an
entry for an in-flight asynchronous call included, whose value slot holds the
pending Promise itself rather than being empty. -/
theorem entries_have_exactly_one_slot (cfg : Config K V E) (ops : List (Op K V E)) :
    wfStore ((run cfg (initSt cfg) ops).result) := by
  have h : ∀ (l : List (Op K V E)) (st : St K V E), wfStore st.result →
      wfStore ((run cfg st l).result) := by
    intro l
    induction l with
    | nil =>
        intro st h
        exact h
    | cons op rest ih =>
        intro st h
        exact ih (applyOp cfg st op) (wfStore_applyOp cfg st op h)
  exact h ops (initSt cfg) (fun m hm => absurd hm (List.not_mem_nil m))

/-- C4: with caching enabled and `ttl = T > 0`, a call with comparator-equal
arguments at most T ms after the cached entry's timestamp returns the cached
value without invoking the function or changing the state, and a call more than
T ms after it deletes the stale entry and re-invokes the function exactly once,
storing the fresh result. -/
theorem ttl_fresh_hit_stale_reinvoke
    (cfg : Config K V E) (k k1 k2 : K) (v v2 : V) (t0 t1 t2 : Nat)
    (hp : cfg.persist = true) (hT : 0 < cfg.ttl)
    (h1 : cfg.argComparer k k1 = true) (h2 : cfg.argComparer k k2 = true)
    (hfresh : t1 - t0 ≤ cfg.ttl) (hstale : cfg.ttl < t2 - t0) :
    (call cfg (call cfg (initSt cfg) t0 k (FnBehavior.sync v)).2 t1 k1
        (FnBehavior.sync v2)).1 = CallResult.value (some (StoredVal.pure v)) ∧
    (call cfg (call cfg (initSt cfg) t0 k (FnBehavior.sync v)).2 t1 k1
        (FnBehavior.sync v2)).2 = (call cfg (initSt cfg) t0 k (FnBehavior.sync v)).2 ∧
    (call cfg (call cfg (initSt cfg) t0 k (FnBehavior.sync v)).2 t2 k2
        (FnBehavior.sync v2)).1 = CallResult.value (some (StoredVal.pure v2)) ∧
    (call cfg (call cfg (initSt cfg) t0 k (FnBehavior.sync v)).2 t2 k2
        (FnBehavior.sync v2)).2.calls = 2 ∧
    (call cfg (call cfg (initSt cfg) t0 k (FnBehavior.sync v)).2 t2 k2
        (FnBehavior.sync v2)).2.result = [⟨1, k2, t2, some (StoredVal.pure v2), none⟩] := by
  have e0 : call cfg (initSt cfg) t0 k (FnBehavior.sync v)
      = (CallResult.value (some (StoredVal.pure v)),
         ⟨false, [⟨0, k, t0, some (StoredVal.pure v), none⟩], [], 1,
          revalidateAllStr :: cfg.tags⟩) := by
    rw [call_empty cfg (initSt cfg) t0 k (FnBehavior.sync v) rfl rfl]
    simp [invoke, initSt, hp]
  have hf1 : (([⟨0, k, t0, some (StoredVal.pure v), none⟩] : List (Node K V E)).find?
      (fun m => cfg.argComparer m.key k1))
      = some ⟨0, k, t0, some (StoredVal.pure v), none⟩ := by
    simp [List.find?, h1]
  have hf2 : (([⟨0, k, t0, some (StoredVal.pure v), none⟩] : List (Node K V E)).find?
      (fun m => cfg.argComparer m.key k2))
      = some ⟨0, k, t0, some (StoredVal.pure v), none⟩ := by
    simp [List.find?, h2]
  have e1 : call cfg
      (⟨false, [⟨0, k, t0, some (StoredVal.pure v), none⟩], [], 1,
        revalidateAllStr :: cfg.tags⟩ : St K V E) t1 k1 (FnBehavior.sync v2)
      = (CallResult.value (some (StoredVal.pure v)),
         ⟨false, [⟨0, k, t0, some (StoredVal.pure v), none⟩], [], 1,
          revalidateAllStr :: cfg.tags⟩) :=
    call_hit cfg _ t1 k1 (FnBehavior.sync v2)
      ⟨0, k, t0, some (StoredVal.pure v), none⟩ rfl hp hf1 (Or.inr hfresh) rfl
  have hstale2 : ¬(cfg.ttl = 0 ∨
      t2 - (⟨0, k, t0, some (StoredVal.pure v), none⟩ : Node K V E).time ≤ cfg.ttl) := by
    rintro (h | h)
    · omega
    · have h3 : t2 - t0 ≤ cfg.ttl := h
      omega
  have e2 : call cfg
      (⟨false, [⟨0, k, t0, some (StoredVal.pure v), none⟩], [], 1,
        revalidateAllStr :: cfg.tags⟩ : St K V E) t2 k2 (FnBehavior.sync v2)
      = (CallResult.value (some (StoredVal.pure v2)),
         ⟨false, [⟨1, k2, t2, some (StoredVal.pure v2), none⟩], [], 2,
          revalidateAllStr :: cfg.tags⟩) := by
    rw [call_stale cfg _ t2 k2 (FnBehavior.sync v2)
      ⟨0, k, t0, some (StoredVal.pure v), none⟩ rfl hp hf2 hstale2]
    simp [invoke, eraseNode, hp, List.filter]
  simp [e0, e1, e2]

/-- C4, witness at the spec's own scenario: `ttl = 1000`, calls at t = 0, 500
and 1500. -/
theorem ttl_fresh_hit_stale_reinvoke_witness :
    0 < cfgTTL.ttl ∧
    ((call cfgTTL (call cfgTTL (initSt cfgTTL) 0 1 (FnBehavior.sync 10)).2 500 1
        (FnBehavior.sync 20)).1 = CallResult.value (some (StoredVal.pure 10)) ∧
    (call cfgTTL (call cfgTTL (initSt cfgTTL) 0 1 (FnBehavior.sync 10)).2 500 1
        (FnBehavior.sync 20)).2 = (call cfgTTL (initSt cfgTTL) 0 1 (FnBehavior.sync 10)).2 ∧
    (call cfgTTL (call cfgTTL (initSt cfgTTL) 0 1 (FnBehavior.sync 10)).2 1500 1
        (FnBehavior.sync 20)).1 = CallResult.value (some (StoredVal.pure 20)) ∧
    (call cfgTTL (call cfgTTL (initSt cfgTTL) 0 1 (FnBehavior.sync 10)).2 1500 1
        (FnBehavior.sync 20)).2.calls = 2 ∧
    (call cfgTTL (call cfgTTL (initSt cfgTTL) 0 1 (FnBehavior.sync 10)).2 1500 1
        (FnBehavior.sync 20)).2.result = [⟨1, 1, 1500, some (StoredVal.pure 20), none⟩]) :=
  ⟨by decide,
   ttl_fresh_hit_stale_reinvoke cfgTTL 1 1 1 10 20 0 500 1500 rfl (by decide) rfl rfl
     (by decide) (by decide)⟩

/-- C5: with `persistOnError = false` (the default), a failing call is never
reused: a synchronous throw stores nothing and an equal-args follow-up call
invokes the function a second time; an asynchronous rejection removes the
in-flight entry at settlement, leaving the store empty, and an equal-args
follow-up call likewise invokes the function a second time. -/
theorem failing_call_not_reused
    (cfg : Config K V E) (k k1 k2 k3 : K) (e : E) (t0 t1 : Nat)
    (beh beh2 : FnBehavior V E) (hpe : cfg.persistOnError = false) :
    (call cfg (initSt cfg) t0 k (FnBehavior.throwE e)).1 = CallResult.thrown e ∧
    (call cfg (initSt cfg) t0 k (FnBehavior.throwE e)).2.result = [] ∧
    (call cfg (initSt cfg) t0 k (FnBehavior.throwE e)).2.calls = 1 ∧
    (call cfg (call cfg (initSt cfg) t0 k (FnBehavior.throwE e)).2 t1 k1 beh).2.calls = 2 ∧
    (settle cfg (call cfg (initSt cfg) t0 k2 FnBehavior.async).2 0
        (Outcome.reject e)).result = [] ∧
    (settle cfg (call cfg (initSt cfg) t0 k2 FnBehavior.async).2 0
        (Outcome.reject e)).pending = [] ∧
    (call cfg (settle cfg (call cfg (initSt cfg) t0 k2 FnBehavior.async).2 0
        (Outcome.reject e)) t1 k3 beh2).2.calls = 2 := by
  have eA : call cfg (initSt cfg) t0 k (FnBehavior.throwE e)
      = (CallResult.thrown e, ⟨false, [], [], 1, revalidateAllStr :: cfg.tags⟩) := by
    rw [call_empty cfg (initSt cfg) t0 k (FnBehavior.throwE e) rfl rfl]
    simp [invoke, initSt, hpe]
  have eA2 : (call cfg (⟨false, [], [], 1, revalidateAllStr :: cfg.tags⟩ : St K V E)
      t1 k1 beh).2.calls = 2 := by
    rw [call_empty cfg _ t1 k1 beh rfl rfl, invoke_calls]
  have eB : call cfg (initSt cfg) t0 k2 FnBehavior.async
      = (CallResult.value (some (StoredVal.prom 0)),
         ⟨false, [⟨0, k2, t0, some (StoredVal.prom 0), none⟩], [0], 1,
          revalidateAllStr :: cfg.tags⟩) := by
    rw [call_empty cfg (initSt cfg) t0 k2 FnBehavior.async rfl rfl]
    simp [invoke, initSt]
  have eC : settle cfg
      (⟨false, [⟨0, k2, t0, some (StoredVal.prom 0), none⟩], [0], 1,
        revalidateAllStr :: cfg.tags⟩ : St K V E) 0 (Outcome.reject e)
      = ⟨false, [], [], 1, revalidateAllStr :: cfg.tags⟩ := by
    simp [settle, hpe, eraseNode, List.filter]
  have eD : (call cfg (⟨false, [], [], 1, revalidateAllStr :: cfg.tags⟩ : St K V E)
      t1 k3 beh2).2.calls = 2 := by
    rw [call_empty cfg _ t1 k3 beh2 rfl rfl, invoke_calls]
  simp [eA, eB, eC, eA2, eD]

/-- C5, witness: caching on, error caching at its default, a throwing call and
a rejecting async call with equal arguments, each followed by a second call. -/
theorem failing_call_not_reused_witness :
    cfgPersist.persistOnError = false ∧
    ((call cfgPersist (initSt cfgPersist) 0 1 (FnBehavior.throwE 3)).1
        = CallResult.thrown 3 ∧
    (call cfgPersist (initSt cfgPersist) 0 1 (FnBehavior.throwE 3)).2.result = [] ∧
    (call cfgPersist (initSt cfgPersist) 0 1 (FnBehavior.throwE 3)).2.calls = 1 ∧
    (call cfgPersist (call cfgPersist (initSt cfgPersist) 0 1 (FnBehavior.throwE 3)).2 1 1
        (FnBehavior.sync 5)).2.calls = 2 ∧
    (settle cfgPersist (call cfgPersist (initSt cfgPersist) 0 2 FnBehavior.async).2 0
        (Outcome.reject 3)).result = [] ∧
    (settle cfgPersist (call cfgPersist (initSt cfgPersist) 0 2 FnBehavior.async).2 0
        (Outcome.reject 3)).pending = [] ∧
    (call cfgPersist (settle cfgPersist
        (call cfgPersist (initSt cfgPersist) 0 2 FnBehavior.async).2 0
        (Outcome.reject 3)) 1 2 (FnBehavior.sync 6)).2.calls = 2) :=
  ⟨rfl, failing_call_not_reused cfgPersist 1 1 2 2 3 0 1 (FnBehavior.sync 5)
    (FnBehavior.sync 6) rfl⟩

/-- C6: constructing with a tag list that contains the reserved sentinel fails
at construction time with the configuration error, and construction with any
other tag list succeeds, yielding the subscribed initial state. -/
theorem construct_reserved_tag (cfg : Config K V E) :
    (construct cfg = Except.error reservedTagMsg ∧ revalidateAllStr ∈ cfg.tags) ∨
    (construct cfg = Except.ok (initSt cfg) ∧ revalidateAllStr ∉ cfg.tags) := by
  by_cases h : revalidateAllStr ∈ cfg.tags
  · exact Or.inl ⟨by simp [construct, h], h⟩
  · exact Or.inr ⟨by simp [construct, h], h⟩

/-- C10: with caching and error caching both enabled, a synchronously thrown
falsy error is cached, and a later call with comparator-equal arguments returns
`undefined` (value slot `none`) as a successful result — without re-invoking
and without re-throwing the cached falsy error. -/
theorem falsy_cached_error_returns_undefined
    (cfg : Config K V E) (k k1 : K) (e : E) (t0 t1 : Nat) (beh : FnBehavior V E)
    (hp : cfg.persist = true) (hpe : cfg.persistOnError = true)
    (hfalsy : cfg.errTruthy e = false) (hcmp : cfg.argComparer k k1 = true)
    (hlive : cfg.ttl = 0 ∨ t1 - t0 ≤ cfg.ttl) :
    (call cfg (initSt cfg) t0 k (FnBehavior.throwE e)).1 = CallResult.thrown e ∧
    (call cfg (initSt cfg) t0 k (FnBehavior.throwE e)).2.result
        = [⟨0, k, t0, none, some e⟩] ∧
    (call cfg (call cfg (initSt cfg) t0 k (FnBehavior.throwE e)).2 t1 k1 beh).1
        = CallResult.value none ∧
    (call cfg (call cfg (initSt cfg) t0 k (FnBehavior.throwE e)).2 t1 k1 beh).2.calls
        = 1 := by
  have eA : call cfg (initSt cfg) t0 k (FnBehavior.throwE e)
      = (CallResult.thrown e,
         ⟨false, [⟨0, k, t0, none, some e⟩], [], 1, revalidateAllStr :: cfg.tags⟩) := by
    rw [call_empty cfg (initSt cfg) t0 k (FnBehavior.throwE e) rfl rfl]
    simp [invoke, initSt, hp, hpe]
  have hf : (([⟨0, k, t0, none, some e⟩] : List (Node K V E)).find?
      (fun m => cfg.argComparer m.key k1)) = some ⟨0, k, t0, none, some e⟩ := by
    simp [List.find?, hcmp]
  have eB : call cfg
      (⟨false, [⟨0, k, t0, none, some e⟩], [], 1, revalidateAllStr :: cfg.tags⟩ : St K V E)
      t1 k1 beh
      = (CallResult.value none,
         ⟨false, [⟨0, k, t0, none, some e⟩], [], 1, revalidateAllStr :: cfg.tags⟩) :=
    call_hit_falsy_err cfg _ t1 k1 beh ⟨0, k, t0, none, some e⟩ e rfl hp hf hlive rfl hfalsy
  simp [eA, eB]

/-- C10, witness: error caching on, the thrown error is the falsy number 0, and
the later equal-args call returns `undefined` as a success. -/
theorem falsy_cached_error_returns_undefined_witness :
    (cfgErrCache.persist = true ∧ cfgErrCache.persistOnError = true ∧
     cfgErrCache.errTruthy 0 = false) ∧
    ((call cfgErrCache (initSt cfgErrCache) 0 1 (FnBehavior.throwE 0)).1
        = CallResult.thrown 0 ∧
    (call cfgErrCache (initSt cfgErrCache) 0 1 (FnBehavior.throwE 0)).2.result
        = [⟨0, 1, 0, none, some 0⟩] ∧
    (call cfgErrCache (call cfgErrCache (initSt cfgErrCache) 0 1 (FnBehavior.throwE 0)).2
        1 1 (FnBehavior.sync 9)).1 = CallResult.value none ∧
    (call cfgErrCache (call cfgErrCache (initSt cfgErrCache) 0 1 (FnBehavior.throwE 0)).2
        1 1 (FnBehavior.sync 9)).2.calls = 1) :=
  ⟨⟨rfl, rfl, rfl⟩,
   falsy_cached_error_returns_undefined cfgErrCache 1 1 0 0 1 (FnBehavior.sync 9)
     rfl rfl rfl rfl (Or.inl rfl)⟩

/-- C9, counterexample: in the reachable state where async `call(7)` is still
in flight, the store's single entry has its value slot set (to the pending
promise) — not "neither value nor error set" as the claim states. -/
theorem inflight_entry_has_value_set :
    inFlightState.pending = [0] ∧
    inFlightState.result.map (fun n => (n.id, n.val, n.err))
        = [(0, some (StoredVal.prom 0), none)] ∧
    (inFlightState.result.all fun n => n.val.isNone && n.err.isNone) = false := by
  decide

end FnMergeCache
